import Mathlib

/-!
Shallow embedding of the `electrsd` crate (process-orchestration harness for
an `electrs` daemon used in integration tests), covering:

* `ElectrsD::with_conf` (src/lib.rs): the IBD pre-check against the companion
  bitcoind node, working-directory selection, port allocation, subprocess
  spawning, the readiness-polling loop, and the early-exit retry logic;
* `ElectrsD::kill` / `inner_kill` and the `Drop` impl (src/lib.rs);
* `wait_height` / `wait_tx` (src/ext.rs);
* `exe_path` / `downloaded_exe_path` (src/lib.rs) with `versions.rs`.

External effects (RPC calls to bitcoind, port allocation by the OS, process
exit observation, handshake outcomes, the filesystem) are modelled by oracle
functions packaged in environment structures, and each modelled operation
additionally returns a trace of the externally observable events it performs,
in program order.  Machine integers of the source are modelled as `Nat`/`Int`
(none of the modelled arithmetic can overflow: `attempts : u8` only ever
decreases).  The unbounded `loop` of `with_conf` is given explicit fuel; the
`running` outcome marks fuel exhaustion with the loop still going.
-/

namespace Electrsd

/-- Externally observable events performed by `ElectrsD::with_conf`
(src/lib.rs lines 150-292), in program order. -/
inductive Event where
  /-- the `getblockchaininfo` RPC call (lib.rs:155) -/
  | queryBlockchainInfo
  /-- the `getnewaddress` RPC call (lib.rs:163) -/
  | getNewAddress
  /-- the `generatetoaddress` RPC call (lib.rs:166); mutates the shared chain -/
  | generateToAddress (nblocks : Nat)
  /-- `TempDir::new_in root` / `TempDir::new` (lib.rs:174,180,181) -/
  | createTempDir (root : Option String)
  /-- `std::fs::create_dir_all` (lib.rs:176) -/
  | createDirAll (path : String)
  /-- `get_available_port()` returning `p` (lib.rs:233,238,244) -/
  | allocPort (p : Nat)
  /-- the `Command::spawn` call (lib.rs:260-264) -/
  | spawn
  /-- the non-blocking `process.try_wait()` check (lib.rs:267) -/
  | tryWait (exited : Bool)
  /-- the `RawClient::new` handshake attempt (lib.rs:279) -/
  | handshake (ok : Bool)
  /-- `thread::sleep` of `ms` milliseconds (lib.rs:281) -/
  | sleepMs (ms : Nat)
  deriving DecidableEq, Repr

/-- The `Conf` struct (src/lib.rs lines 47-84).  Paths are modelled as
strings; `attempts : u8` is modelled as `Nat` (it is only ever decremented
while positive, so no wraparound arises). -/
structure Conf where
  args : List String
  view_stderr : Bool
  http_enabled : Bool
  network : String
  tmpdir : Option String
  staticdir : Option String
  attempts : Nat
  deriving DecidableEq, Repr

/-- `Conf::default()` (src/lib.rs lines 86-108) for a build without a version
feature: empty extra args, stderr suppressed, no esplora endpoint, regtest,
no explicit directories, 3 attempts. -/
def Conf.default : Conf :=
  { args := [], view_stderr := false, http_enabled := false, network := "regtest",
    tmpdir := none, staticdir := none, attempts := 3 }

/-- The `DataDir` enum (src/lib.rs lines 126-131). -/
inductive DataDir where
  | persistent (p : String)
  | temporary (p : String)
  deriving DecidableEq, Repr

/-- `DataDir::path` (src/lib.rs lines 133-141). -/
def DataDir.path : DataDir → String
  | .persistent p => p
  | .temporary p => p

/-- The crate `Error` enum (src/error.rs), restricted to the variants the
modelled operations can produce; wrapped I/O failures of spawning are
collapsed into `spawnFailed`. -/
inductive Error where
  /-- `Error::EarlyExit(status)` (error.rs:18) -/
  | earlyExit (status : Int)
  /-- `Error::BothDirsSpecified` (error.rs:21) -/
  | bothDirsSpecified
  /-- `Error::NoElectrsExecutableFound` (error.rs:25) -/
  | noElectrsExecutableFound
  /-- `Error::BothEnvVars` (error.rs:28) -/
  | bothEnvVars
  /-- an I/O error from `Command::spawn` (lib.rs:264) -/
  | spawnFailed
  deriving DecidableEq, Repr

/-- The fields of the returned `ElectrsD` struct (src/lib.rs lines 111-122)
that the model tracks (the process handle and client connection are external
resources represented by their traces). -/
structure ElectrsD where
  electrum_url : String
  esplora_url : Option String
  work_dir : DataDir
  deriving DecidableEq, Repr

/-- Oracle environment for `with_conf`: the attempt index `a` counts the
recursive re-entries of `with_conf` caused by early-exit retries (0 for the
first call), and poll-iteration oracles are additionally indexed by the
iteration number within one attempt. -/
structure SpawnEnv where
  /-- value of the `initialblockdownload` field of `getblockchaininfo`
  (`none` when absent or non-boolean) at re-entry `a` -/
  ibdField : Nat → Option Bool
  /-- the `TEMPDIR_ROOT` environment variable -/
  tempdirRoot : Option String
  /-- the fresh name the OS picks for a temporary directory at re-entry `a` -/
  tempName : Nat → String
  /-- the stream of ports handed out by `get_available_port`, indexed by how
  many allocations happened so far across all attempts -/
  ports : Nat → Nat
  /-- whether `Command::spawn` succeeds at re-entry `a` -/
  spawnOk : Nat → Bool
  /-- `process.try_wait()` at re-entry `a`, poll iteration `i`: `some st`
  when the subprocess has already exited with status `st` -/
  exited : Nat → Nat → Option Int
  /-- whether `RawClient::new` succeeds at re-entry `a`, poll iteration `i` -/
  handshakeOk : Nat → Nat → Bool

/-- The `initialblockdownload` check (src/lib.rs lines 156-160):
`.get("initialblockdownload").and_then(|v| v.as_bool()).unwrap_or(false)`. -/
def ibdOf (env : SpawnEnv) (a : Nat) : Bool :=
  (env.ibdField a).getD false

/-- Events of the IBD pre-check that opens `with_conf`
(src/lib.rs lines 155-168). -/
def preEvents (env : SpawnEnv) (a : Nat) : List Event :=
  .queryBlockchainInfo ::
    (if ibdOf env a then [.getNewAddress, .generateToAddress 1] else [])

/-- The working-directory selection of `with_conf` (src/lib.rs lines
172-183): both directories set is an error; otherwise the chosen `DataDir`
together with the directory-creation event. -/
def dirChoice (env : SpawnEnv) (conf : Conf) (a : Nat) :
    Except Error (DataDir × Event) :=
  match conf.tmpdir, conf.staticdir with
  | some _, some _ => .error .bothDirsSpecified
  | some t, none =>
    .ok (.temporary (t ++ "/" ++ env.tempName a), .createTempDir (some t))
  | none, some w => .ok (.persistent w, .createDirAll w)
  | none, none =>
    match env.tempdirRoot with
    | some root =>
      .ok (.temporary (root ++ "/" ++ env.tempName a), .createTempDir (some root))
    | none => .ok (.temporary ("/tmp/" ++ env.tempName a), .createTempDir none)

/-- Outcome of a single pass of the readiness-polling `loop`
(src/lib.rs lines 266-283) under bounded fuel. -/
inductive PollOutcome where
  /-- `RawClient::new` succeeded: `break client` (lib.rs:280) -/
  | ready
  /-- `try_wait` observed the subprocess already exited (lib.rs:267) -/
  | earlyExit (status : Int)
  /-- fuel exhausted with the loop still running (model artifact: the source
  `loop` has no exit of its own) -/
  | running
  deriving DecidableEq, Repr

/-- The readiness-polling `loop` of `with_conf` (src/lib.rs lines 266-283):
each iteration first performs the non-blocking `try_wait` check, then, if the
subprocess is still alive, attempts the `RawClient::new` handshake, sleeping
500ms on handshake failure.  `i` is the iteration index used by the oracles;
`fuel` bounds the number of iterations the model unrolls. -/
def pollLoopTr (exitSt : Nat → Option Int) (hs : Nat → Bool) :
    Nat → Nat → PollOutcome × List Event
  | 0, _ => (.running, [])
  | fuel + 1, i =>
    match exitSt i with
    | some st => (.earlyExit st, [.tryWait true])
    | none =>
      if hs i then (.ready, [.tryWait false, .handshake true])
      else
        let r := pollLoopTr exitSt hs fuel (i + 1)
        (r.1, .tryWait false :: .handshake false :: .sleepMs 500 :: r.2)

/-- Number of `get_available_port` calls one attempt of `with_conf` performs:
electrum-rpc and monitoring always (lib.rs:233,238), http only when
`http_enabled` (lib.rs:244). -/
def Conf.numPorts (conf : Conf) : Nat :=
  if conf.http_enabled then 3 else 2

/-- Outcome of one full attempt of `with_conf` (one entry of the function
body, not following the early-exit recursion). -/
inductive AttemptOut where
  /-- returned a configuration error before spawning -/
  | confErr (e : Error)
  /-- `Command::spawn` failed -/
  | spawnErr
  /-- the polling loop reached `Ready`; carries the constructed handle -/
  | ready (d : ElectrsD)
  /-- the polling loop observed an early exit with this status -/
  | early (status : Int)
  /-- poll fuel exhausted (model artifact) -/
  | outOfFuel
  deriving DecidableEq, Repr

/-- The port-allocation events of one attempt (src/lib.rs lines 233-246):
electrum-rpc, monitoring, and (when `http_enabled`) http, in that order,
drawing from the allocator stream starting at index `pc`. -/
def portEvents (env : SpawnEnv) (conf : Conf) (pc : Nat) : List Event :=
  if conf.http_enabled then
    [.allocPort (env.ports pc), .allocPort (env.ports (pc + 1)),
     .allocPort (env.ports (pc + 2))]
  else [.allocPort (env.ports pc), .allocPort (env.ports (pc + 1))]

/-- Port allocation, spawn and polling of one `with_conf` attempt
(src/lib.rs lines 233-283), after the working directory has been chosen.
`pc` is the number of ports allocated by earlier attempts. -/
def attemptCore (env : SpawnEnv) (conf : Conf) (a pc fuel : Nat)
    (workDir : DataDir) : AttemptOut × List Event :=
  let electrum_url := "0.0.0.0:" ++ toString (env.ports pc)
  let esplora_url : Option String :=
    if conf.http_enabled then some ("0.0.0.0:" ++ toString (env.ports (pc + 2)))
    else none
  if env.spawnOk a then
    let r := pollLoopTr (env.exited a) (env.handshakeOk a) fuel 0
    (match r.1 with
     | .ready => .ready ⟨electrum_url, esplora_url, workDir⟩
     | .earlyExit st => .early st
     | .running => .outOfFuel,
     portEvents env conf pc ++ Event.spawn :: r.2)
  else (.spawnErr, portEvents env conf pc ++ [Event.spawn])

/-- One full attempt of `with_conf` (src/lib.rs lines 155-283): IBD
pre-check, directory selection, then `attemptCore`. -/
def attemptRun (env : SpawnEnv) (conf : Conf) (a pc fuel : Nat) :
    AttemptOut × List Event :=
  match dirChoice env conf a with
  | .error e => (.confErr e, preEvents env a)
  | .ok (workDir, dirEvt) =>
    let r := attemptCore env conf a pc fuel workDir
    (r.1, preEvents env a ++ dirEvt :: r.2)

/-- The retry recursion of `with_conf` (src/lib.rs lines 266-277): on early
exit with `attempts > 0` the whole construction re-runs with `attempts`
decremented (lib.rs:268-273); with `attempts = 0` it fails with
`Error::EarlyExit(status)` (lib.rs:276).  `attempts` mirrors `conf.attempts`
at the current re-entry; the result is `none` when poll fuel ran out with the
loop still going (model artifact). -/
def withConfGo (env : SpawnEnv) (conf : Conf) (fuel : Nat) :
    Nat → Nat → Nat → Option (Except Error ElectrsD) × List Event
  | attempts, a, pc =>
    match attemptRun env conf a pc fuel with
    | (.confErr e, tr) => (some (.error e), tr)
    | (.spawnErr, tr) => (some (.error .spawnFailed), tr)
    | (.ready d, tr) => (some (.ok d), tr)
    | (.outOfFuel, tr) => (none, tr)
    | (.early st, tr) =>
      match attempts with
      | 0 => (some (.error (.earlyExit st)), tr)
      | n + 1 =>
        let r := withConfGo env conf fuel n (a + 1) (pc + conf.numPorts)
        (r.1, tr ++ r.2)

/-- `ElectrsD::with_conf` (src/lib.rs lines 150-292) as a whole: run the
retry recursion starting from the configured attempt budget, with no ports
allocated yet. -/
def with_conf (env : SpawnEnv) (conf : Conf) (fuel : Nat) :
    Option (Except Error ElectrsD) × List Event :=
  withConfGo env conf fuel conf.attempts 0 0

/-! ## Subprocess stdio configuration (src/lib.rs lines 253-264) -/

/-- The relevant `std::process::Stdio` configurations. -/
inductive StdioMode where
  | inherit
  | null
  | piped
  deriving DecidableEq, Repr

/-- The stdio configuration state of a `std::process::Command` builder:
`none` means the stream was never configured. -/
structure CommandCfg where
  stdinCfg : Option StdioMode
  stdoutCfg : Option StdioMode
  stderrCfg : Option StdioMode
  deriving DecidableEq, Repr

/-- `Command::new` leaves all three stdio streams unconfigured. -/
def Command.new : CommandCfg :=
  { stdinCfg := none, stdoutCfg := none, stderrCfg := none }

/-- The `.stderr(cfg)` builder call. -/
def CommandCfg.setStderr (c : CommandCfg) (s : StdioMode) : CommandCfg :=
  { c with stderrCfg := some s }

/-- Modelled from `std::process` semantics (the Rust standard library, not
part of this repository): for `Command::spawn`, a stdio stream that was never
configured defaults to inheriting the parent's handle. -/
def spawnEffective (o : Option StdioMode) : StdioMode :=
  o.getD .inherit

/-- The `Command` builder state `with_conf` spawns (src/lib.rs lines
253-264): only `stderr` is configured — inherit when `conf.view_stderr`,
null otherwise; stdout and stdin are left unconfigured. -/
def electrsCommand (conf : Conf) : CommandCfg :=
  Command.new.setStderr (if conf.view_stderr then .inherit else .null)

/-! ## Teardown: `kill`, `inner_kill`, `Drop` (src/lib.rs lines 313-347) -/

/-- Oracles for teardown: whether the SIGINT delivery, the blocking
`process.wait()`, and the forceful `process.kill()` succeed. -/
structure KillEnv where
  sigintOk : Bool
  waitOk : Bool
  killOk : Bool
  deriving DecidableEq, Repr

/-- Externally observable teardown actions. -/
inductive KAct where
  /-- `nix::sys::signal::kill(pid, SIGINT)` (lib.rs:331-334) -/
  | sigint
  /-- the blocking `process.wait()` (lib.rs:319) -/
  | waitChild
  /-- the forceful `process.kill()` (lib.rs:324) -/
  | forceKill
  deriving DecidableEq, Repr

/-- `ElectrsD::inner_kill` on non-Windows targets (src/lib.rs lines
328-335): deliver SIGINT, propagating a delivery failure. -/
def inner_kill (env : KillEnv) : Except Unit Unit × List KAct :=
  if env.sigintOk then (.ok (), [.sigint]) else (.error (), [.sigint])

/-- `ElectrsD::kill` (src/lib.rs lines 314-326): branch on the `DataDir`
variant — Persistent: `inner_kill` (SIGINT) then block in `process.wait()`;
Temporary: `process.kill()` immediately, no wait. -/
def kill (env : KillEnv) (workDir : DataDir) : Except Unit Unit × List KAct :=
  match workDir with
  | .persistent _ =>
    match inner_kill env with
    | (.ok _, tr) =>
      if env.waitOk then (.ok (), tr ++ [.waitChild])
      else (.error (), tr ++ [.waitChild])
    | (.error e, tr) => (.error e, tr)
  | .temporary _ =>
    if env.killOk then (.ok (), [.forceKill]) else (.error (), [.forceKill])

/-- The `Drop` impl for `ElectrsD` (src/lib.rs lines 343-347): invoke
`kill` and discard its result (`let _ = self.kill();`). -/
def dropElectrsD (env : KillEnv) (workDir : DataDir) : Unit × List KAct :=
  let r := kill env workDir
  ((), r.2)

/-! ## Bounded auxiliary pollers (src/ext.rs) -/

/-- Externally observable events of the `ext.rs` pollers. -/
inductive ExtEvent where
  /-- `client.block_header_raw(height)` and whether it succeeded (ext.rs:16) -/
  | blockHeaderRaw (height : Nat) (ok : Bool)
  /-- `client.transaction_get(txid)` and whether it succeeded (ext.rs:26) -/
  | transactionGet (ok : Bool)
  /-- `client.script_get_history(..)` on the first output's script (ext.rs:31-34) -/
  | scriptGetHistory
  /-- `thread::sleep` of `ms` milliseconds (ext.rs:18,47) -/
  | sleepMs (ms : Nat)
  deriving DecidableEq, Repr

/-- First index `i ≥ i₀` within `n` steps at which `success` holds. -/
def firstSuccess (success : Nat → Bool) : Nat → Nat → Option Nat
  | 0, _ => none
  | n + 1, i => if success i then some i else firstSuccess success n (i + 1)

/-- The body of `wait_height`'s loop (src/ext.rs lines 14-21), unrolled with
an explicit remaining-iterations counter `n` and attempt index `i`.  `avail i
h` says whether `block_header_raw h` succeeds at attempt `i`.  The returned
`Option Nat` records at which attempt the loop broke (`none`: budget
exhausted, the source function returns unit silently either way). -/
def wait_heightGo (avail : Nat → Nat → Bool) (height : Nat) :
    Nat → Nat → Option Nat × List ExtEvent
  | 0, _ => (none, [])
  | n + 1, i =>
    if avail i height then (some i, [.blockHeaderRaw height true])
    else
      let r := wait_heightGo avail height n (i + 1)
      (r.1, .blockHeaderRaw height false :: .sleepMs 100 :: r.2)

/-- `ElectrsD::wait_height` (src/ext.rs lines 14-21): up to 600 attempts,
sleeping 100ms after each failed header retrieval. -/
def wait_height (avail : Nat → Nat → Bool) (height : Nat) :
    Option Nat × List ExtEvent :=
  wait_heightGo avail height 600 0

/-- A transaction as `wait_tx` observes it: its computed txid (`tx.txid()`,
ext.rs:29) and the list of its outputs' script pubkeys (both modelled as
opaque `Nat` identities). -/
structure Tx where
  txid : Nat
  output : List Nat
  deriving DecidableEq, Repr

/-- Oracles for `wait_tx`, indexed by the attempt number: the result of
`transaction_get` and the history `script_get_history` returns for a given
script (the source unwraps the history call, so it is modelled as total). -/
structure TxEnv where
  transaction_get : Nat → Option Tx
  script_get_history : Nat → Nat → List Nat

/-- The early-return condition of one `wait_tx` attempt: the raw transaction
is retrievable and either it has no outputs, or its txid appears in the
address history of its first output's script. -/
def txSuccess (env : TxEnv) (i : Nat) : Bool :=
  match env.transaction_get i with
  | none => false
  | some tx =>
    match tx.output with
    | [] => true
    | s :: _ => decide (tx.txid ∈ env.script_get_history i s)

/-- The body of `wait_tx`'s loop (src/ext.rs lines 25-49), unrolled with an
explicit remaining-iterations counter.  On a failed `transaction_get` the
loop sleeps 100ms; on a retrieved transaction whose first-output history does
not yet contain the txid it continues immediately (`continue 'main_loop`,
no sleep); zero outputs or a history hit return. -/
def wait_txGo (env : TxEnv) : Nat → Nat → Option Nat × List ExtEvent
  | 0, _ => (none, [])
  | n + 1, i =>
    match env.transaction_get i with
    | none =>
      let r := wait_txGo env n (i + 1)
      (r.1, .transactionGet false :: .sleepMs 100 :: r.2)
    | some tx =>
      match tx.output with
      | [] => (some i, [.transactionGet true])
      | s :: _ =>
        if tx.txid ∈ env.script_get_history i s then
          (some i, [.transactionGet true, .scriptGetHistory])
        else
          let r := wait_txGo env n (i + 1)
          (r.1, .transactionGet true :: .scriptGetHistory :: r.2)

/-- `ElectrsD::wait_tx` (src/ext.rs lines 24-50): up to 600 attempts. -/
def wait_tx (env : TxEnv) : Option Nat × List ExtEvent :=
  wait_txGo env 600 0

/-! ## Executable resolution (src/lib.rs lines 349-419, src/versions.rs) -/

/-- Oracle environment for `exe_path`: the environment variables it reads,
the compile-time version feature data (`versions.rs`), and the filesystem
predicates of the PATH search.  The non-Windows branch is modelled
(path separator `:`, `electrs` candidate name, execute-permission check). -/
structure ExeEnv where
  /-- the `ELECTRS_EXEC` environment variable -/
  electrs_exec : Option String
  /-- the `ELECTRS_EXE` environment variable -/
  electrs_exe : Option String
  /-- `versions::HAS_FEATURE` -/
  has_feature : Bool
  /-- whether `ELECTRSD_SKIP_DOWNLOAD` is set -/
  skip_download : Bool
  /-- the `OUT_DIR` build-time variable -/
  out_dir : String
  /-- `versions::VERSION` -/
  version : String
  /-- the `PATH` environment variable -/
  path_var : Option String
  /-- `Path::is_file` -/
  is_file : String → Bool
  /-- the permission bits `metadata.permissions().mode()` -/
  file_mode : String → Nat

/-- `versions::electrs_name()` (src/versions.rs lines 42-44) on a Linux
target: `format!("electrs_{}_{}", OS, VERSION)` with `OS = "linux"`. -/
def electrs_name (env : ExeEnv) : String :=
  "electrs_linux_" ++ env.version

/-- `downloaded_exe_path` (src/lib.rs lines 350-360): some path under
`OUT_DIR` iff a version feature is enabled and `ELECTRSD_SKIP_DOWNLOAD` is
not set. -/
def downloaded_exe_path (env : ExeEnv) : Option String :=
  if env.has_feature && !env.skip_download then
    some (env.out_dir ++ "/electrs/" ++ electrs_name env ++ "/electrs")
  else none

/-- The executability test of the PATH search (src/lib.rs lines 398-409):
the candidate is a file and has some execute bit set
(`mode & 0o111 != 0`; `0o111 = 73`). -/
def isExecutableFile (env : ExeEnv) (c : String) : Bool :=
  env.is_file c && decide (Nat.land (env.file_mode c) 73 ≠ 0)

/-- The PATH-search loop of `exe_path` (src/lib.rs lines 388-416): for each
directory in order, test the candidate `dir/electrs`, returning the first
executable one. -/
def searchPathDirs (env : ExeEnv) : List String → Option String
  | [] => none
  | d :: ds =>
    let candidate := d ++ "/electrs"
    if isExecutableFile env candidate then some candidate
    else searchPathDirs env ds

/-- `exe_path` (src/lib.rs lines 367-419): error if both env overrides are
set; else `ELECTRS_EXEC`; else `ELECTRS_EXE`; else the downloaded path; else
the PATH search (a missing `PATH` variable maps to
`NoElectrsExecutableFound`), and `NoElectrsExecutableFound` when the search
finds nothing. -/
def exe_path (env : ExeEnv) : Except Error String :=
  if env.electrs_exec.isSome && env.electrs_exe.isSome then .error .bothEnvVars
  else
    match env.electrs_exec with
    | some p => .ok p
    | none =>
      match env.electrs_exe with
      | some p => .ok p
      | none =>
        match downloaded_exe_path env with
        | some p => .ok p
        | none =>
          match env.path_var with
          | none => .error .noElectrsExecutableFound
          | some pv =>
            match searchPathDirs env (pv.splitOn ":") with
            | some c => .ok c
            | none => .error .noElectrsExecutableFound

/-- Modelled from the spec: the total precedence ordering of executable
resolution as the spec words it — both overrides set is a configuration
error; otherwise `ELECTRS_EXEC`, then `ELECTRS_EXE`, then the pre-fetched
downloaded path, then the first directory on the PATH holding an executable
named `electrs` (an unset PATH contributes no directories); if none yields a
path, the no-executable-found error. -/
def exe_path_spec (env : ExeEnv) : Except Error String :=
  match env.electrs_exec, env.electrs_exe with
  | some _, some _ => .error .bothEnvVars
  | some p, none => .ok p
  | none, some p => .ok p
  | none, none =>
    match downloaded_exe_path env with
    | some p => .ok p
    | none =>
      let dirs : List String :=
        match env.path_var with
        | none => []
        | some pv => pv.splitOn ":"
      match dirs.find? (fun d => isExecutableFile env (d ++ "/electrs")) with
      | some d => .ok (d ++ "/electrs")
      | none => .error .noElectrsExecutableFound

/-! ## Helper predicates on event traces -/

/-- Whether an event is a handshake attempt. -/
def isHandshake : Event → Bool
  | .handshake _ => true
  | _ => false

/-- Whether an event mutates the shared chain state of the companion node. -/
def isChainMutation : Event → Bool
  | .generateToAddress _ => true
  | .getNewAddress => true
  | _ => false

/-- `noBadHandshake prev l` holds when every handshake event in `l` is
immediately preceded by a non-blocking `tryWait false` check (`prev` is the
event just before `l`). -/
def noBadHandshake : Option Event → List Event → Bool
  | _, [] => true
  | prev, e :: rest =>
    (!isHandshake e || decide (prev = some (.tryWait false))) &&
      noBadHandshake (some e) rest

/-- Number of handshake attempts recorded in a trace. -/
def countHandshakes (l : List Event) : Nat :=
  (l.filter isHandshake).length

/-! ## Concrete oracle environments used by the witnesses -/

/-- A concrete spawn environment: the node reports IBD at the first entry,
spawning succeeds, the subprocess exits immediately with status 1, the
handshake never succeeds, and the allocator hands out ports 7000, 7001, …. -/
def envEarly : SpawnEnv :=
  { ibdField := fun a => if a = 0 then some true else some false
    tempdirRoot := none
    tempName := fun _ => "t"
    ports := fun n => 7000 + n
    spawnOk := fun _ => true
    exited := fun _ _ => some 1
    handshakeOk := fun _ _ => false }

/-- `envEarly` with the `initialblockdownload` field absent at every entry. -/
def envNoIbd : SpawnEnv :=
  { envEarly with ibdField := fun _ => none }

/-- A configuration with both a temporary and a persistent directory set. -/
def confBoth : Conf :=
  { Conf.default with tmpdir := some "/tmp/a", staticdir := some "/tmp/b" }

/-- A concrete header oracle: height 101 becomes retrievable at attempt 2,
nothing else is ever retrievable. -/
def availW : Nat → Nat → Bool :=
  fun j h => decide (2 ≤ j) && decide (h = 101)

/-- A concrete transaction oracle: the raw transaction (txid 5, one output
with script 9) appears at attempt 1, its script history reflects it from
attempt 2 on. -/
def txEnvW : TxEnv :=
  { transaction_get := fun i => if 1 ≤ i then some ⟨5, [9]⟩ else none
    script_get_history := fun i _ => if 2 ≤ i then [5] else [] }

end Electrsd

namespace Electrsd

/-! ## General lemmas -/

theorem noBadHandshake_of_noHs (l : List Event)
    (h : ∀ e ∈ l, isHandshake e = false) :
    ∀ prev, noBadHandshake prev l = true := by
  induction l with
  | nil => intro prev; rfl
  | cons e es ih =>
    intro prev
    rw [noBadHandshake, Bool.and_eq_true]
    refine ⟨?_, ih (fun x hx => h x (by simp [hx])) (some e)⟩
    simp [h e (by simp)]

theorem noBadHandshake_append (l1 l2 : List Event) (prev : Option Event)
    (h1 : ∀ e ∈ l1, isHandshake e = false)
    (h2 : ∀ p, noBadHandshake p l2 = true) :
    noBadHandshake prev (l1 ++ l2) = true := by
  induction l1 generalizing prev with
  | nil => exact h2 prev
  | cons e es ih =>
    rw [List.cons_append, noBadHandshake, Bool.and_eq_true]
    refine ⟨?_, ih (some e) (fun x hx => h1 x (by simp [hx]))⟩
    simp [h1 e (by simp)]

theorem pollLoopTr_noBadHandshake (exitSt : Nat → Option Int) (hs : Nat → Bool) :
    ∀ fuel i prev, noBadHandshake prev (pollLoopTr exitSt hs fuel i).2 = true := by
  intro fuel
  induction fuel with
  | zero => intro i prev; rfl
  | succ n ih =>
    intro i prev
    rw [pollLoopTr]
    cases hex : exitSt i with
    | some st => rfl
    | none =>
      by_cases hh : hs i
      · simp [hh, noBadHandshake, isHandshake]
      · simp only [hh, if_false]
        simp [noBadHandshake, isHandshake, ih (i + 1) (some (Event.sleepMs 500))]

theorem preEvents_noHs (env : SpawnEnv) (a : Nat) :
    ∀ e ∈ preEvents env a, isHandshake e = false := by
  intro e he
  unfold preEvents at he
  by_cases h : ibdOf env a = true <;>
    simp [h] at he <;> rcases he with rfl | rfl | rfl <;> rfl

theorem portEvents_noHs (env : SpawnEnv) (conf : Conf) (pc : Nat) :
    ∀ e ∈ portEvents env conf pc, isHandshake e = false := by
  intro e he
  unfold portEvents at he
  by_cases h : conf.http_enabled <;>
    simp [h] at he <;> rcases he with rfl | rfl | rfl <;> rfl

theorem dirChoice_evt (env : SpawnEnv) (conf : Conf) (a : Nat) (w : DataDir)
    (ev : Event) (h : dirChoice env conf a = .ok (w, ev)) :
    isHandshake ev = false ∧ isChainMutation ev = false := by
  unfold dirChoice at h
  split at h
  · exact Except.noConfusion h
  · rw [Except.ok.injEq, Prod.mk.injEq] at h
    rw [← h.2]; exact ⟨rfl, rfl⟩
  · rw [Except.ok.injEq, Prod.mk.injEq] at h
    rw [← h.2]; exact ⟨rfl, rfl⟩
  · split at h <;>
    · rw [Except.ok.injEq, Prod.mk.injEq] at h
      rw [← h.2]; exact ⟨rfl, rfl⟩

theorem attemptCore_snd (env : SpawnEnv) (conf : Conf) (a pc fuel : Nat)
    (workDir : DataDir) :
    (attemptCore env conf a pc fuel workDir).2 =
      portEvents env conf pc ++ Event.spawn ::
        (if env.spawnOk a then
          (pollLoopTr (env.exited a) (env.handshakeOk a) fuel 0).2
         else []) := by
  unfold attemptCore
  by_cases hsp : env.spawnOk a <;> simp [hsp]

theorem attemptPrefix_noHs (env : SpawnEnv) (conf : Conf) (a pc : Nat)
    (dirEvt : Event) (hev : isHandshake dirEvt = false) :
    ∀ e ∈ preEvents env a ++ (dirEvt :: (portEvents env conf pc ++ [Event.spawn])),
      isHandshake e = false := by
  intro e he
  rcases List.mem_append.1 he with h1 | h2
  · exact preEvents_noHs env a e h1
  · rcases List.mem_cons.1 h2 with rfl | h3
    · exact hev
    · rcases List.mem_append.1 h3 with h4 | h5
      · exact portEvents_noHs env conf pc e h4
      · have := List.mem_singleton.1 h5
        subst this; rfl

theorem attemptRun_noBadHandshake (env : SpawnEnv) (conf : Conf)
    (a pc fuel : Nat) :
    noBadHandshake none (attemptRun env conf a pc fuel).2 = true := by
  unfold attemptRun
  cases hd : dirChoice env conf a with
  | error e => exact noBadHandshake_of_noHs _ (preEvents_noHs env a) none
  | ok wd =>
    obtain ⟨workDir, dirEvt⟩ := wd
    simp only [attemptCore_snd]
    by_cases hsp : env.spawnOk a = true
    · rw [if_pos hsp]
      have hsplit :
          preEvents env a ++ dirEvt :: (portEvents env conf pc ++ Event.spawn ::
            (pollLoopTr (env.exited a) (env.handshakeOk a) fuel 0).2) =
          (preEvents env a ++ (dirEvt :: (portEvents env conf pc ++ [Event.spawn]))) ++
            (pollLoopTr (env.exited a) (env.handshakeOk a) fuel 0).2 := by
        simp
      rw [hsplit]
      exact noBadHandshake_append _ _ _
        (attemptPrefix_noHs env conf a pc dirEvt
          (dirChoice_evt env conf a workDir dirEvt hd).1)
        (fun p => pollLoopTr_noBadHandshake _ _ fuel 0 p)
    · rw [if_neg hsp]
      exact noBadHandshake_of_noHs _
        (attemptPrefix_noHs env conf a pc dirEvt
          (dirChoice_evt env conf a workDir dirEvt hd).1) none

/-! ## Claims -/

/-- Claim C3: for every configuration with both `tmpdir` and `staticdir`
set, construction fails with `Error::BothDirsSpecified`, and no subprocess
is spawned (nor any port allocated) before that failure. -/
theorem c3_both_dirs_error_before_spawn (env : SpawnEnv) (conf : Conf)
    (fuel : Nat) (t s : String)
    (ht : conf.tmpdir = some t) (hs : conf.staticdir = some s) :
    (with_conf env conf fuel).1 = some (.error .bothDirsSpecified) ∧
    Event.spawn ∉ (with_conf env conf fuel).2 ∧
    ∀ p, Event.allocPort p ∉ (with_conf env conf fuel).2 := by
  have hd : dirChoice env conf 0 = .error .bothDirsSpecified := by
    unfold dirChoice
    rw [ht, hs]
  have ha : attemptRun env conf 0 0 fuel =
      (.confErr .bothDirsSpecified, preEvents env 0) := by
    unfold attemptRun
    rw [hd]
  have hw : with_conf env conf fuel =
      (some (.error .bothDirsSpecified), preEvents env 0) := by
    unfold with_conf withConfGo
    rw [ha]
  rw [hw]
  refine ⟨rfl, ?_, ?_⟩
  · unfold preEvents
    by_cases h : ibdOf env 0 = true <;> simp [h]
  · intro p
    unfold preEvents
    by_cases h : ibdOf env 0 = true <;> simp [h]

/-- Witness for C3 at a concrete environment and configuration. -/
theorem c3_witness :
    (with_conf envEarly confBoth 1).1 = some (.error .bothDirsSpecified) ∧
    Event.spawn ∉ (with_conf envEarly confBoth 1).2 ∧
    ∀ p, Event.allocPort p ∉ (with_conf envEarly confBoth 1).2 :=
  c3_both_dirs_error_before_spawn envEarly confBoth 1 "/tmp/a" "/tmp/b" rfl rfl

/-- Claim C4: `kill()` branches on the data-directory variant — with a
Persistent directory it first sends the graceful SIGINT and, when delivery
succeeds, blocks in `process.wait()` before returning; with a Temporary
directory it performs the forceful `process.kill()` only, never waiting for
the subprocess. -/
theorem c4_kill_branches (env : KillEnv) (p t : String) :
    (kill env (.persistent p)).2.head? = some KAct.sigint ∧
    (env.sigintOk = true →
      (kill env (.persistent p)).2 = [KAct.sigint, KAct.waitChild]) ∧
    (kill env (.temporary t)).2 = [KAct.forceKill] ∧
    KAct.waitChild ∉ (kill env (.temporary t)).2 ∧
    KAct.sigint ∉ (kill env (.temporary t)).2 := by
  refine ⟨?_, ?_, ?_, ?_, ?_⟩ <;>
    cases hsig : env.sigintOk <;> cases hw : env.waitOk <;>
      cases hk : env.killOk <;> simp [kill, inner_kill, hsig, hw, hk]

/-- Witness for C4 at a concrete teardown environment. -/
theorem c4_witness :
    (kill ⟨true, true, true⟩ (DataDir.persistent "d")).2 =
      [KAct.sigint, KAct.waitChild] ∧
    (kill ⟨true, true, true⟩ (DataDir.temporary "e")).2 = [KAct.forceKill] :=
  ⟨(c4_kill_branches ⟨true, true, true⟩ "d" "e").2.1 rfl,
   (c4_kill_branches ⟨true, true, true⟩ "d" "e").2.2.1⟩

/-- Claim C5: the `Drop` impl invokes `kill()` (performing exactly the same
teardown actions) and discards any error it produces: even when `kill`
returns an error, the implicit teardown returns unit with nothing
re-raised. -/
theorem c5_drop_discards_errors (env : KillEnv) (d : DataDir) :
    (dropElectrsD env d).2 = (kill env d).2 ∧
    ((kill env d).1 = Except.error () →
      dropElectrsD env d = ((), (kill env d).2)) :=
  ⟨rfl, fun _ => rfl⟩

/-- Witness for C5: a teardown whose SIGINT delivery fails still drops
silently, having performed `kill`'s actions. -/
theorem c5_witness :
    (kill ⟨false, true, true⟩ (DataDir.persistent "x")).1 = Except.error () ∧
    dropElectrsD ⟨false, true, true⟩ (DataDir.persistent "x") =
      ((), (kill ⟨false, true, true⟩ (DataDir.persistent "x")).2) :=
  ⟨rfl, (c5_drop_discards_errors ⟨false, true, true⟩ (DataDir.persistent "x")).2 rfl⟩

/-- Claim C6, counterexample: the claim says the subprocess's standard
output is always discarded, but `with_conf` never configures stdout on the
`Command` (src/lib.rs lines 260-264), and for `spawn` an unconfigured stream
inherits the parent's handle — already under the default configuration the
effective stdout is inherit, not null. -/
theorem c6_counterexample :
    spawnEffective (electrsCommand Conf.default).stdoutCfg = StdioMode.inherit ∧
    StdioMode.inherit ≠ StdioMode.null := by
  exact ⟨rfl, by decide⟩

/-- Claim C6 (amended): for every configuration, the spawned subprocess's
standard output is left unconfigured and therefore inherited from the parent
process (the Rust `spawn` default), not discarded; standard error is
inherited when `view_stderr` is set and discarded (null) otherwise. -/
theorem c6_stdio_config (conf : Conf) :
    (electrsCommand conf).stdoutCfg = none ∧
    spawnEffective (electrsCommand conf).stdoutCfg = StdioMode.inherit ∧
    spawnEffective (electrsCommand conf).stderrCfg =
      (if conf.view_stderr then StdioMode.inherit else StdioMode.null) := by
  refine ⟨rfl, rfl, ?_⟩
  by_cases h : conf.view_stderr = true <;>
    simp [electrsCommand, Command.new, CommandCfg.setStderr, spawnEffective, h]

theorem searchPathDirs_eq_find (env : ExeEnv) (l : List String) :
    searchPathDirs env l =
      (l.find? (fun d => isExecutableFile env (d ++ "/electrs"))).map
        (fun d => d ++ "/electrs") := by
  induction l with
  | nil => rfl
  | cons d ds ih =>
    by_cases h : isExecutableFile env (d ++ "/electrs") = true <;>
      simp [searchPathDirs, List.find?_cons, h, ih]

/-- Claim C9: `exe_path` realizes the total precedence ordering the spec
describes — both env overrides set is the `BothEnvVars` error; otherwise
`ELECTRS_EXEC`, then `ELECTRS_EXE`, then the pre-fetched downloaded path
(present iff a version feature is enabled and download is not skipped), then
the first executable named `electrs` on the `PATH`; and the
`NoElectrsExecutableFound` error when none yields a path. -/
theorem c9_exe_path_precedence (env : ExeEnv) :
    exe_path env = exe_path_spec env := by
  unfold exe_path exe_path_spec
  cases hexec : env.electrs_exec with
  | some p => cases hexe : env.electrs_exe <;> simp
  | none =>
    cases hexe : env.electrs_exe with
    | some p => simp
    | none =>
      cases hd : downloaded_exe_path env with
      | some p => simp
      | none =>
        cases hp : env.path_var with
        | none => simp [List.find?]
        | some pv =>
          simp only [searchPathDirs_eq_find]
          cases hf : (pv.splitOn ":").find?
              (fun d => isExecutableFile env (d ++ "/electrs")) <;>
            simp [hf]

theorem firstSuccess_eq_some (s : Nat → Bool) :
    ∀ n i0 i, (firstSuccess s n i0 = some i ↔
      i0 ≤ i ∧ i < i0 + n ∧ s i = true ∧
        ∀ j, i0 ≤ j → j < i → s j = false) := by
  intro n
  induction n with
  | zero =>
    intro i0 i
    constructor
    · intro h
      exact Option.noConfusion h
    · rintro ⟨h1, h2, -⟩
      exact absurd h2 (by omega)
  | succ n ih =>
    intro i0 i
    rw [firstSuccess]
    by_cases h : s i0 = true
    · rw [if_pos h]
      constructor
      · intro hsome
        have hi : i0 = i := Option.some.inj hsome
        subst hi
        exact ⟨le_refl _, by omega, h, fun j hj1 hj2 => absurd hj1 (by omega)⟩
      · rintro ⟨h1, h2, h3, h4⟩
        rcases Nat.eq_or_lt_of_le h1 with heq | hlt
        · rw [heq]
        · have := h4 i0 (le_refl _) hlt
          rw [h] at this
          exact Bool.noConfusion this
    · rw [if_neg h]
      rw [ih (i0 + 1) i]
      constructor
      · rintro ⟨h1, h2, h3, h4⟩
        refine ⟨by omega, by omega, h3, fun j hj1 hj2 => ?_⟩
        rcases Nat.eq_or_lt_of_le hj1 with heq | hlt
        · rw [← heq]
          exact Bool.not_eq_true _ ▸ (by simpa using h)
        · exact h4 j (by omega) hj2
      · rintro ⟨h1, h2, h3, h4⟩
        have hne : i ≠ i0 := by
          intro heq
          rw [heq] at h3
          exact h h3
        exact ⟨by omega, by omega, h3, fun j hj1 hj2 => h4 j (by omega) hj2⟩

theorem firstSuccess_eq_none (s : Nat → Bool) :
    ∀ n i0, (firstSuccess s n i0 = none ↔
      ∀ j, i0 ≤ j → j < i0 + n → s j = false) := by
  intro n
  induction n with
  | zero =>
    intro i0
    constructor
    · intro _ j h1 h2
      exact absurd h2 (by omega)
    · intro _
      rfl
  | succ n ih =>
    intro i0
    rw [firstSuccess]
    by_cases h : s i0 = true
    · rw [if_pos h]
      constructor
      · intro hc; exact Option.noConfusion hc
      · intro hall
        have := hall i0 (le_refl _) (by omega)
        rw [h] at this
        exact Bool.noConfusion this
    · rw [if_neg h]
      rw [ih (i0 + 1)]
      constructor
      · intro hall j hj1 hj2
        rcases Nat.eq_or_lt_of_le hj1 with heq | hlt
        · rw [← heq]
          simpa using h
        · exact hall j (by omega) (by omega)
      · intro hall j hj1 hj2
        exact hall j (by omega) (by omega)

theorem wait_heightGo_fst (avail : Nat → Nat → Bool) (height : Nat) :
    ∀ n i, (wait_heightGo avail height n i).1 =
      firstSuccess (fun j => avail j height) n i := by
  intro n
  induction n with
  | zero => intro i; rfl
  | succ n ih =>
    intro i
    rw [wait_heightGo, firstSuccess]
    by_cases h : avail i height = true <;> simp [h, ih (i + 1)]

theorem wait_heightGo_events (avail : Nat → Nat → Bool) (height : Nat) :
    ∀ n i e, e ∈ (wait_heightGo avail height n i).2 →
      (∃ b, e = ExtEvent.blockHeaderRaw height b) ∨ e = ExtEvent.sleepMs 100 := by
  intro n
  induction n with
  | zero => intro i e he; exact absurd he (by simp [wait_heightGo])
  | succ n ih =>
    intro i e he
    rw [wait_heightGo] at he
    by_cases h : avail i height = true
    · rw [if_pos h] at he
      rcases List.mem_singleton.1 he with rfl
      exact Or.inl ⟨true, rfl⟩
    · rw [if_neg h] at he
      rcases List.mem_cons.1 he with rfl | he'
      · exact Or.inl ⟨false, rfl⟩
      · rcases List.mem_cons.1 he' with rfl | he''
        · exact Or.inr rfl
        · exact ih (i + 1) e he''

theorem wait_heightGo_congr (avail avail' : Nat → Nat → Bool) (height : Nat)
    (h : ∀ j, avail' j height = avail j height) :
    ∀ n i, wait_heightGo avail' height n i = wait_heightGo avail height n i := by
  intro n
  induction n with
  | zero => intro i; rfl
  | succ n ih =>
    intro i
    rw [wait_heightGo, wait_heightGo, h i, ih (i + 1)]

/-- Claim C8: `wait_height h` polls retrieval of the block header at exactly
height `h` for up to 600 attempts, sleeping 100ms after each failure; it
breaks early at attempt `i` exactly when the header at height `h` itself is
first retrievable there (its result depends only on retrievability at height
`h`, so success at any other height cannot satisfy it), and when the budget
is exhausted it just stops, returning no error. -/
theorem c8_wait_height (avail : Nat → Nat → Bool) (height i : Nat) :
    ((wait_height avail height).1 = some i ↔
      i < 600 ∧ avail i height = true ∧ ∀ j, j < i → avail j height = false) ∧
    ((wait_height avail height).1 = none ↔
      ∀ j, j < 600 → avail j height = false) ∧
    (∀ e ∈ (wait_height avail height).2,
      (∃ b, e = ExtEvent.blockHeaderRaw height b) ∨ e = ExtEvent.sleepMs 100) ∧
    (∀ avail' : Nat → Nat → Bool, (∀ j, avail' j height = avail j height) →
      wait_height avail' height = wait_height avail height) := by
  refine ⟨?_, ?_, ?_, ?_⟩
  · rw [wait_height, wait_heightGo_fst, firstSuccess_eq_some]
    constructor
    · rintro ⟨-, h2, h3, h4⟩
      exact ⟨by omega, h3, fun j hj => h4 j (by omega) hj⟩
    · rintro ⟨h1, h2, h3⟩
      exact ⟨by omega, by omega, h2, fun j _ hj => h3 j hj⟩
  · rw [wait_height, wait_heightGo_fst, firstSuccess_eq_none]
    constructor
    · intro h j hj; exact h j (by omega) (by omega)
    · intro h j _ hj; exact h j (by omega)
  · exact wait_heightGo_events avail height 600 0
  · intro avail' h
    rw [wait_height, wait_height, wait_heightGo_congr avail avail' height h]

/-- Witness for C8 at the concrete oracle `availW`. -/
theorem c8_witness :
    (wait_height availW 101).1 = some 2 ∧
    wait_height availW 101 = wait_height availW 101 :=
  ⟨((c8_wait_height availW 101 2).1).mpr (by decide),
   (c8_wait_height availW 101 2).2.2.2 availW (fun j => rfl)⟩

theorem wait_txGo_fst (env : TxEnv) :
    ∀ n i, (wait_txGo env n i).1 = firstSuccess (txSuccess env) n i := by
  intro n
  induction n with
  | zero => intro i; rfl
  | succ n ih =>
    intro i
    rw [wait_txGo, firstSuccess]
    cases ht : env.transaction_get i with
    | none => simp [txSuccess, ht, ih (i + 1)]
    | some tx =>
      cases ho : tx.output with
      | nil => simp [txSuccess, ht, ho]
      | cons s rest =>
        by_cases hm : tx.txid ∈ env.script_get_history i s <;>
          simp [txSuccess, ht, ho, hm, ih (i + 1)]

theorem wait_txGo_sleeps (env : TxEnv) :
    ∀ n i m, ExtEvent.sleepMs m ∈ (wait_txGo env n i).2 → m = 100 := by
  intro n
  induction n with
  | zero => intro i m hm; exact absurd hm (by simp [wait_txGo])
  | succ n ih =>
    intro i m hm
    rw [wait_txGo] at hm
    cases ht : env.transaction_get i with
    | none =>
      simp only [ht, List.mem_cons] at hm
      rcases hm with heq | heq | hm''
      · exact ExtEvent.noConfusion heq
      · exact ExtEvent.sleepMs.inj heq
      · exact ih (i + 1) m hm''
    | some tx =>
      cases ho : tx.output with
      | nil =>
        simp only [ht, ho] at hm
        simp at hm
      | cons s rest =>
        by_cases hmem : tx.txid ∈ env.script_get_history i s
        · simp only [ht, ho, if_pos hmem] at hm
          simp at hm
        · simp only [ht, ho, if_neg hmem, List.mem_cons] at hm
          rcases hm with heq | heq | hm''
          · exact ExtEvent.noConfusion heq
          · exact ExtEvent.noConfusion heq
          · exact ih (i + 1) m hm''

/-- Claim C7: `wait_tx` breaks early at attempt `i` exactly when the raw
transaction is retrievable there and — if it has at least one output — its
txid appears in the address history of its first output's script, the
secondary check being skipped for a zero-output transaction; the budget is
600 attempts, with 100ms sleeps between failed retrieval attempts, the same
budget as `wait_height`. -/
theorem c7_wait_tx (env : TxEnv) (i : Nat) :
    ((wait_tx env).1 = some i ↔
      i < 600 ∧ txSuccess env i = true ∧
        ∀ j, j < i → txSuccess env j = false) ∧
    ((wait_tx env).1 = none ↔ ∀ j, j < 600 → txSuccess env j = false) ∧
    (∀ tx, env.transaction_get i = some tx → tx.output = [] →
      txSuccess env i = true) ∧
    (∀ tx s rest, env.transaction_get i = some tx → tx.output = s :: rest →
      (txSuccess env i = true ↔ tx.txid ∈ env.script_get_history i s)) ∧
    (env.transaction_get i = none → txSuccess env i = false) ∧
    (∀ m, ExtEvent.sleepMs m ∈ (wait_tx env).2 → m = 100) := by
  refine ⟨?_, ?_, ?_, ?_, ?_, ?_⟩
  · rw [wait_tx, wait_txGo_fst, firstSuccess_eq_some]
    constructor
    · rintro ⟨-, h2, h3, h4⟩
      exact ⟨by omega, h3, fun j hj => h4 j (by omega) hj⟩
    · rintro ⟨h1, h2, h3⟩
      exact ⟨by omega, by omega, h2, fun j _ hj => h3 j hj⟩
  · rw [wait_tx, wait_txGo_fst, firstSuccess_eq_none]
    constructor
    · intro h j hj; exact h j (by omega) (by omega)
    · intro h j _ hj; exact h j (by omega)
  · intro tx ht ho
    simp [txSuccess, ht, ho]
  · intro tx s rest ht ho
    simp [txSuccess, ht, ho]
  · intro ht
    simp [txSuccess, ht]
  · exact wait_txGo_sleeps env 600 0

/-- Witness for C7 at the concrete oracle `txEnvW`: the loop passes over the
attempt where only the raw transaction is visible and breaks once the
history check also succeeds. -/
theorem c7_witness :
    (wait_tx txEnvW).1 = some 2 ∧
    (txSuccess txEnvW 2 = true ↔ (5 : Nat) ∈ txEnvW.script_get_history 2 9) ∧
    txSuccess txEnvW 0 = false :=
  ⟨((c7_wait_tx txEnvW 2).1).mpr (by decide),
   (c7_wait_tx txEnvW 2).2.2.2.1 ⟨5, [9]⟩ 9 [] (by decide) rfl,
   (c7_wait_tx txEnvW 0).2.2.2.2.1 (by decide)⟩

theorem pollLoopTr_sleeps (exitSt : Nat → Option Int) (hs : Nat → Bool) :
    ∀ fuel i m, Event.sleepMs m ∈ (pollLoopTr exitSt hs fuel i).2 → m = 500 := by
  intro fuel
  induction fuel with
  | zero => intro i m hm; exact absurd hm (by simp [pollLoopTr])
  | succ n ih =>
    intro i m hm
    rw [pollLoopTr] at hm
    cases hex : exitSt i with
    | some st =>
      simp only [hex] at hm
      simp at hm
    | none =>
      by_cases hh : hs i = true
      · simp only [hex, if_pos hh] at hm
        simp at hm
      · simp only [hex, if_neg hh, List.mem_cons] at hm
        rcases hm with heq | heq | heq | hm''
        · exact Event.noConfusion heq
        · exact Event.noConfusion heq
        · exact Event.sleepMs.inj heq
        · exact ih (i + 1) m hm''

set_option maxRecDepth 8000 in
/-- Claim C2, counterexample: with a subprocess that never exits and a
handshake that never succeeds, the readiness loop of `with_conf` is still
running after 601 poll iterations, having performed 601 handshake attempts —
more than the fixed attempt ceiling the claim asserts (the auxiliary pollers
use 600): the polling phase of construction has no attempt ceiling. -/
theorem c2_counterexample :
    (pollLoopTr (fun _ => none) (fun _ => false) 601 0).1 =
      PollOutcome.running ∧
    countHandshakes (pollLoopTr (fun _ => none) (fun _ => false) 601 0).2 =
      601 := by
  constructor <;> decide

/-- Claim C2 (amended): the readiness-polling loop of `with_conf` has no
attempt ceiling — it sleeps 500ms after each failed handshake attempt and
repeats indefinitely; when the subprocess never exits and the handshake
never succeeds, no amount of fuel makes the loop terminate (after `fuel`
iterations it has performed exactly `fuel` handshake attempts and is still
running). -/
theorem c2_polling_unbounded (exitSt : Nat → Option Int) (hs : Nat → Bool)
    (hex : ∀ i, exitSt i = none) (hhs : ∀ i, hs i = false) :
    (∀ fuel i, (pollLoopTr exitSt hs fuel i).1 = PollOutcome.running) ∧
    (∀ fuel i, countHandshakes (pollLoopTr exitSt hs fuel i).2 = fuel) ∧
    (∀ fuel i m, Event.sleepMs m ∈ (pollLoopTr exitSt hs fuel i).2 →
      m = 500) := by
  refine ⟨?_, ?_, fun fuel => pollLoopTr_sleeps exitSt hs fuel⟩
  · intro fuel
    induction fuel with
    | zero => intro i; rfl
    | succ n ih =>
      intro i
      rw [pollLoopTr]
      simp [hex i, hhs i, ih (i + 1)]
  · intro fuel
    induction fuel with
    | zero => intro i; rfl
    | succ n ih =>
      intro i
      rw [pollLoopTr]
      simp [hex i, hhs i, countHandshakes, isHandshake]
      have := ih (i + 1)
      rw [countHandshakes] at this
      omega

/-- Witness for C2's amended theorem at concrete all-failing oracles. -/
theorem c2_witness :
    (pollLoopTr (fun _ => none) (fun _ => false) 5 0).1 =
      PollOutcome.running ∧
    countHandshakes (pollLoopTr (fun _ => none) (fun _ => false) 5 0).2 = 5 :=
  ⟨(c2_polling_unbounded (fun _ => none) (fun _ => false)
      (fun _ => rfl) (fun _ => rfl)).1 5 0,
   (c2_polling_unbounded (fun _ => none) (fun _ => false)
      (fun _ => rfl) (fun _ => rfl)).2.1 5 0⟩

theorem dirChoice_ok_any (env : SpawnEnv) (conf : Conf) (a b : Nat)
    (w : DataDir) (ev : Event) (h : dirChoice env conf a = .ok (w, ev)) :
    ∃ w' ev', dirChoice env conf b = .ok (w', ev') := by
  unfold dirChoice at h ⊢
  cases ht : conf.tmpdir with
  | some t =>
    cases hstat : conf.staticdir with
    | some s =>
      simp only [ht, hstat] at h
      exact Except.noConfusion h
    | none =>
      simp only [ht, hstat]
      exact ⟨_, _, rfl⟩
  | none =>
    cases hstat : conf.staticdir with
    | some s =>
      simp only [ht, hstat]
      exact ⟨_, _, rfl⟩
    | none =>
      simp only [ht, hstat]
      cases htr : env.tempdirRoot <;> exact ⟨_, _, rfl⟩

theorem attemptRun_allocPort (env : SpawnEnv) (conf : Conf) (a pc fuel : Nat)
    (w : DataDir) (ev : Event) (h : dirChoice env conf a = .ok (w, ev)) :
    Event.allocPort (env.ports pc) ∈ (attemptRun env conf a pc fuel).2 := by
  unfold attemptRun
  simp only [h, attemptCore_snd]
  refine List.mem_append_right _ (List.mem_cons_of_mem _
    (List.mem_append_left _ ?_))
  unfold portEvents
  by_cases hh : conf.http_enabled = true
  · rw [if_pos hh]; exact List.mem_cons_self _ _
  · rw [if_neg hh]; exact List.mem_cons_self _ _

theorem withConfGo_snd (env : SpawnEnv) (conf : Conf) (fuel : Nat) :
    ∀ attempts a pc, (withConfGo env conf fuel attempts a pc).2 =
      (attemptRun env conf a pc fuel).2 ++
        (match (attemptRun env conf a pc fuel).1, attempts with
         | AttemptOut.early _, n + 1 =>
             (withConfGo env conf fuel n (a + 1) (pc + conf.numPorts)).2
         | _, _ => []) := by
  intro attempts a pc
  conv_lhs => rw [withConfGo]
  rcases hr : attemptRun env conf a pc fuel with ⟨out, tr⟩
  cases out <;> cases attempts <;> simp

theorem withConfGo_trace_extends (env : SpawnEnv) (conf : Conf)
    (fuel attempts a pc : Nat) :
    ∃ rest, (withConfGo env conf fuel attempts a pc).2 =
      (attemptRun env conf a pc fuel).2 ++ rest :=
  ⟨_, withConfGo_snd env conf fuel attempts a pc⟩

/-- Claim C1: when an attempt of `with_conf` observes (by the non-blocking
`try_wait` check that precedes every handshake attempt) that the subprocess
exited early with status `st`, then — if the retry budget is zero the whole
construction fails with `EarlyExit st`; if the budget is `n + 1` it re-runs
the whole spawn with the budget decremented to `n` and the port allocator
advanced past this attempt's allocations, so the retry draws fresh ports
(the retry's trace indeed allocates the next port of the stream). -/
theorem c1_early_exit_retry (env : SpawnEnv) (conf : Conf) (a pc fuel : Nat)
    (st : Int) (tr : List Event)
    (h : attemptRun env conf a pc fuel = (.early st, tr)) :
    (conf.attempts = 0 →
      withConfGo env conf fuel conf.attempts a pc =
        (some (.error (.earlyExit st)), tr)) ∧
    (∀ n, conf.attempts = n + 1 →
      withConfGo env conf fuel conf.attempts a pc =
        ((withConfGo env conf fuel n (a + 1) (pc + conf.numPorts)).1,
          tr ++ (withConfGo env conf fuel n (a + 1) (pc + conf.numPorts)).2)) ∧
    (∀ n, conf.attempts = n + 1 →
      Event.allocPort (env.ports (pc + conf.numPorts)) ∈
        (withConfGo env conf fuel n (a + 1) (pc + conf.numPorts)).2) ∧
    noBadHandshake none tr = true := by
  have hok : ∃ w ev, dirChoice env conf a = .ok (w, ev) := by
    unfold attemptRun at h
    cases hd : dirChoice env conf a with
    | error e =>
      simp only [hd] at h
      simp at h
    | ok wd =>
      obtain ⟨w, ev⟩ := wd
      exact ⟨w, ev, rfl⟩
  refine ⟨?_, ?_, ?_, ?_⟩
  · intro h0
    rw [h0]
    conv_lhs => rw [withConfGo]
    rw [h]
  · intro n hn
    rw [hn]
    conv_lhs => rw [withConfGo]
    rw [h]
  · intro n hn
    obtain ⟨w, ev, hd⟩ := hok
    obtain ⟨w', ev', hd'⟩ := dirChoice_ok_any env conf a (a + 1) w ev hd
    obtain ⟨rest, hrest⟩ :=
      withConfGo_trace_extends env conf fuel n (a + 1) (pc + conf.numPorts)
    rw [hrest]
    exact List.mem_append_left _
      (attemptRun_allocPort env conf (a + 1) (pc + conf.numPorts) fuel w' ev' hd')
  · have hnb := attemptRun_noBadHandshake env conf a pc fuel
    rw [h] at hnb
    exact hnb

/-- Witness for C1 at `envEarly` (immediate exit with status 1) and the
default configuration (3 attempts): the first early exit re-runs with budget
2 and port counter advanced. -/
theorem c1_witness :
    Conf.default.attempts = 2 + 1 ∧
    withConfGo envEarly Conf.default 1 Conf.default.attempts 0 0 =
      ((withConfGo envEarly Conf.default 1 2 1 (0 + Conf.default.numPorts)).1,
        (attemptRun envEarly Conf.default 0 0 1).2 ++
          (withConfGo envEarly Conf.default 1 2 1 (0 + Conf.default.numPorts)).2) ∧
    Event.allocPort (envEarly.ports (0 + Conf.default.numPorts)) ∈
      (withConfGo envEarly Conf.default 1 2 1 (0 + Conf.default.numPorts)).2 :=
  ⟨rfl,
   (c1_early_exit_retry envEarly Conf.default 0 0 1 1
      (attemptRun envEarly Conf.default 0 0 1).2 rfl).2.1 2 rfl,
   (c1_early_exit_retry envEarly Conf.default 0 0 1 1
      (attemptRun envEarly Conf.default 0 0 1).2 rfl).2.2.1 2 rfl⟩

theorem attemptRun_mem_pre (env : SpawnEnv) (conf : Conf) (a pc fuel : Nat)
    (e : Event) (he : e ∈ preEvents env a) :
    e ∈ (attemptRun env conf a pc fuel).2 := by
  unfold attemptRun
  cases hd : dirChoice env conf a with
  | error e' =>
    simp only [hd]
    exact he
  | ok wd =>
    simp only [hd]
    exact List.mem_append_left _ he

theorem attemptRun_head (env : SpawnEnv) (conf : Conf) (a pc fuel : Nat) :
    ∃ t, (attemptRun env conf a pc fuel).2 = Event.queryBlockchainInfo :: t := by
  unfold attemptRun
  cases hd : dirChoice env conf a with
  | error e =>
    simp only [hd]
    exact ⟨_, rfl⟩
  | ok wd =>
    simp only [hd]
    exact ⟨_, rfl⟩

theorem pollLoopTr_no_chain (exitSt : Nat → Option Int) (hs : Nat → Bool) :
    ∀ fuel i e, e ∈ (pollLoopTr exitSt hs fuel i).2 →
      isChainMutation e = false := by
  intro fuel
  induction fuel with
  | zero => intro i e he; exact absurd he (by simp [pollLoopTr])
  | succ n ih =>
    intro i e he
    rw [pollLoopTr] at he
    cases hex : exitSt i with
    | some st =>
      simp only [hex] at he
      simp at he
      rw [he]; rfl
    | none =>
      by_cases hh : hs i = true
      · simp only [hex, if_pos hh] at he
        simp at he
        rcases he with rfl | rfl <;> rfl
      · simp only [hex, if_neg hh, List.mem_cons] at he
        rcases he with rfl | rfl | rfl | he''
        · rfl
        · rfl
        · rfl
        · exact ih (i + 1) e he''

theorem attemptRun_no_chain (env : SpawnEnv) (conf : Conf) (a pc fuel : Nat)
    (hibd : ibdOf env a = false) :
    ∀ e ∈ (attemptRun env conf a pc fuel).2, isChainMutation e = false := by
  intro e he
  unfold attemptRun at he
  cases hd : dirChoice env conf a with
  | error e' =>
    simp only [hd] at he
    simp [preEvents, hibd] at he
    rw [he]; rfl
  | ok wd =>
    obtain ⟨workDir, dirEvt⟩ := wd
    simp only [hd, attemptCore_snd] at he
    rcases List.mem_append.1 he with h1 | h2
    · simp [preEvents, hibd] at h1
      rw [h1]; rfl
    · rcases List.mem_cons.1 h2 with heq | h3
      · rw [heq]
        exact (dirChoice_evt env conf a workDir dirEvt hd).2
      · rcases List.mem_append.1 h3 with h4 | h5
        · unfold portEvents at h4
          by_cases hh : conf.http_enabled = true <;> simp [hh] at h4 <;>
            rcases h4 with rfl | rfl | rfl <;> rfl
        · rcases List.mem_cons.1 h5 with rfl | h6
          · rfl
          · by_cases hsp : env.spawnOk a = true
            · rw [if_pos hsp] at h6
              exact pollLoopTr_no_chain _ _ fuel 0 e h6
            · rw [if_neg hsp] at h6
              exact absurd h6 (by simp)

theorem withConfGo_no_chain (env : SpawnEnv) (conf : Conf) (fuel : Nat)
    (hibd : ∀ a, ibdOf env a = false) :
    ∀ attempts a pc e, e ∈ (withConfGo env conf fuel attempts a pc).2 →
      isChainMutation e = false := by
  intro attempts
  induction attempts with
  | zero =>
    intro a pc e he
    rw [withConfGo_snd] at he
    rcases List.mem_append.1 he with h1 | h2
    · exact attemptRun_no_chain env conf a pc fuel (hibd a) e h1
    · rcases hout : (attemptRun env conf a pc fuel).1 <;>
        simp only [hout] at h2 <;> simp at h2
  | succ n ih =>
    intro a pc e he
    rw [withConfGo_snd] at he
    rcases List.mem_append.1 he with h1 | h2
    · exact attemptRun_no_chain env conf a pc fuel (hibd a) e h1
    · rcases hout : (attemptRun env conf a pc fuel).1 with e' | _ | d | st | _ <;>
        simp only [hout] at h2
      · simp at h2
      · simp at h2
      · simp at h2
      · exact ih (a + 1) (pc + conf.numPorts) e h2
      · simp at h2

/-- Claim C10: construction first queries the companion node's blockchain
info (the very first observable event, before any directory or port
allocation); when the node reports initial block download it requests a new
node address and generates one block to it, mutating the shared chain; and
when the node never reports IBD, construction performs no chain-mutating
call at all. -/
theorem c10_ibd_side_effect (env : SpawnEnv) (conf : Conf) (fuel : Nat) :
    (with_conf env conf fuel).2.head? = some Event.queryBlockchainInfo ∧
    (ibdOf env 0 = true →
      Event.generateToAddress 1 ∈ (with_conf env conf fuel).2 ∧
      Event.getNewAddress ∈ (with_conf env conf fuel).2) ∧
    ((∀ a, ibdOf env a = false) →
      ∀ e, e ∈ (with_conf env conf fuel).2 → isChainMutation e = false) := by
  obtain ⟨rest, hrest⟩ :=
    withConfGo_trace_extends env conf fuel conf.attempts 0 0
  obtain ⟨t, ht⟩ := attemptRun_head env conf 0 0 fuel
  refine ⟨?_, ?_, ?_⟩
  · rw [with_conf, hrest, ht]
    rfl
  · intro hibd
    constructor
    · rw [with_conf, hrest]
      exact List.mem_append_left _
        (attemptRun_mem_pre env conf 0 0 fuel _ (by simp [preEvents, hibd]))
    · rw [with_conf, hrest]
      exact List.mem_append_left _
        (attemptRun_mem_pre env conf 0 0 fuel _ (by simp [preEvents, hibd]))
  · intro hibd e he
    exact withConfGo_no_chain env conf fuel hibd conf.attempts 0 0 e he

/-- Witness for C10: at `envEarly` (IBD reported at first entry) a block is
generated; at `envNoIbd` the spawn event is in the trace and is not a chain
mutation (applied at the concrete event `spawn` of the computed trace). -/
theorem c10_witness :
    Event.generateToAddress 1 ∈ (with_conf envEarly Conf.default 1).2 ∧
    isChainMutation Event.spawn = false :=
  ⟨((c10_ibd_side_effect envEarly Conf.default 1).2.1 rfl).1,
   (c10_ibd_side_effect envNoIbd Conf.default 1).2.2 (fun a => rfl)
     Event.spawn (by decide)⟩

end Electrsd
